import Mathlib

/-
Shallow embedding of the snek game logic (src/src/main.rs).

The game is a Bevy application; the engine (scheduler, ECS queries, event
buffers, timers, rendering) is an external collaborator.  We embed the
per-frame bodies of the game systems as pure functions over explicit state:
  * `snek_movement`  — input buffering, boundary check, head move, body shift
  * `snek_eating`    — food consumption and growth-event emission
  * `snek_growth`    — segment append driven by a pending growth event
  * `game_over`      — despawn-all and respawn reset
  * `food_spawner`   — timed random food spawn (random draws passed in)
Positions are Rust i32, embedded as Int (the game keeps values tiny, far from
i32 overflow); the `pos.x as u32` cast in the boundary check is embedded
exactly as reinterpretation modulo 2^32.
-/

namespace Snek

/-- const ARENA_WIDTH: u32 = 10 -/
def ARENA_WIDTH : Nat := 10

/-- const ARENA_HEIGHT: u32 = 10 -/
def ARENA_HEIGHT : Nat := 10

/-- struct Position { x: i32, y: i32 } -/
structure Position where
  x : Int
  y : Int
deriving DecidableEq, Repr

/-- enum Direction { Left, Up, Right, Down } -/
inductive Direction where
  | Left
  | Up
  | Right
  | Down
deriving DecidableEq, Repr

/-- Direction::opposite — pairs Left/Right and Up/Down. -/
def Direction.opposite : Direction → Direction
  | .Left => .Right
  | .Up => .Down
  | .Right => .Left
  | .Down => .Up

/-- struct SnekHead { direction, next_direction } -/
structure SnekHead where
  direction : Direction
  next_direction : Option Direction
deriving DecidableEq, Repr

/-- Reinterpretation of an i32 value as u32 (`pos.x as u32` in Rust):
for any value in the i32 range, the u32 bit pattern is the value mod 2^32. -/
def i32AsU32 (x : Int) : Int := x % 4294967296

/-- The game-over boundary condition in `snek_movement` (main.rs line 162):
`pos.x < 0 || pos.y < 0 || pos.x as u32 >= ARENA_WIDTH || pos.y as u32 >= ARENA_WIDTH`.
Note both axes compare against ARENA_WIDTH. -/
def boundaryViolation (pos : Position) : Bool :=
  decide (pos.x < 0) || decide (pos.y < 0) ||
    decide ((ARENA_WIDTH : Int) ≤ i32AsU32 pos.x) ||
    decide ((ARENA_WIDTH : Int) ≤ i32AsU32 pos.y)

/-- The input-buffering block of `snek_movement` (main.rs lines 166-173):
if a directional key was read, buffer it when it is neither the current
heading nor its opposite, otherwise clear the buffer. -/
def bufferInput (dirInput : Option Direction) (head : SnekHead) : SnekHead :=
  match dirInput with
  | some d =>
      if d ≠ head.direction ∧ d ≠ head.direction.opposite then
        { head with next_direction := some d }
      else
        { head with next_direction := none }
  | none => head

/-- The head displacement of `snek_movement` (main.rs lines 179-184):
Left: x-1, Right: x+1, Up: y+1, Down: y-1. -/
def movePos (d : Direction) (p : Position) : Position :=
  match d with
  | .Left => { p with x := p.x - 1 }
  | .Right => { p with x := p.x + 1 }
  | .Up => { p with y := p.y + 1 }
  | .Down => { p with y := p.y - 1 }

/-- The body-follow loop of `snek_movement` (main.rs lines 185-193), given the
head's new position `hp` and the running `last_pos` (initially the head's
pre-move position).  For each segment in order: if its position equals `hp`,
send a game-over event and leave it (and `last_pos`) unchanged; otherwise swap
it with `last_pos`.  Returns (new segment positions, final last_pos, number of
game-over events sent). -/
def shiftSegments (hp : Position) (lastPos : Position) :
    List Position → List Position × Position × Nat
  | [] => ([], lastPos, 0)
  | s :: rest =>
      if s = hp then
        let r := shiftSegments hp lastPos rest
        (s :: r.1, r.2.1, r.2.2 + 1)
      else
        let r := shiftSegments hp s rest
        (lastPos :: r.1, r.2.1, r.2.2)

/-- Result of one `snek_movement` call for the (unique) head. -/
structure MoveResult where
  head : SnekHead
  pos : Position
  segments : List Position
  lastTail : Option Position
  gameOverSends : Nat
deriving DecidableEq, Repr

/-- One per-frame execution of the body of `snek_movement` (main.rs lines
141-197) for the single head the game maintains.  Inputs: the directional key
read this frame (first pressed direction, if any), whether the movement timer
finished this frame, the head state and position, the segment positions in
query order, and the current LastTailPosition resource.  In source order:
boundary check on the pre-move position (every frame); input buffering; then,
only if the timer finished: take the buffered direction (defaulting to the
current heading), commit it, move the head, run the body-follow loop, and
record the final `last_pos` in LastTailPosition. -/
def snek_movement (dirInput : Option Direction) (timerFinished : Bool)
    (head : SnekHead) (pos : Position) (segments : List Position)
    (lastTail : Option Position) : MoveResult :=
  let sends0 : Nat := if boundaryViolation pos then 1 else 0
  let head1 := bufferInput dirInput head
  if timerFinished then
    let dir := head1.next_direction.getD head1.direction
    let pos1 := movePos dir pos
    let r := shiftSegments pos1 pos segments
    { head := { direction := dir, next_direction := none },
      pos := pos1,
      segments := r.1,
      lastTail := some r.2.1,
      gameOverSends := sends0 + r.2.2 }
  else
    { head := head1, pos := pos, segments := segments,
      lastTail := lastTail, gameOverSends := sends0 }

/-- The direction `snek_movement` commits on a movement tick (main.rs line
177): `head.next_direction.take().unwrap_or(head.direction)`, evaluated after
the input-buffering block. -/
def committedDirection (dirInput : Option Direction) (head : SnekHead) : Direction :=
  (bufferInput dirInput head).next_direction.getD (bufferInput dirInput head).direction

/-- The head position `snek_movement` produces on a movement tick. -/
def newHeadPos (dirInput : Option Direction) (head : SnekHead) (pos : Position) : Position :=
  movePos (committedDirection dirInput head) pos

/-- The snek_eating inner loop (main.rs lines 301-308) for the single head:
each food whose position equals the head position is despawned and sends one
GrowthEvent.  Returns (remaining foods, number of growth events sent). -/
def eatLoop (headPos : Position) : List Position → List Position × Nat
  | [] => ([], 0)
  | f :: rest =>
      let r := eatLoop headPos rest
      if f = headPos then (r.1, r.2 + 1) else (f :: r.1, r.2)

/-- One per-frame execution of `snek_eating` (main.rs lines 291-309): returns
unchanged if the movement timer did not finish, otherwise runs the
consumption loop. -/
def snek_eating (timerFinished : Bool) (headPos : Position)
    (foods : List Position) : List Position × Nat :=
  if timerFinished then eatLoop headPos foods else (foods, 0)

/-- One per-frame execution of `snek_growth` (main.rs lines 311-326), given
the number of growth events the local reader has pending, the
LastTailPosition resource and the segment positions.  The code checks
`growth_reader.iter(..).next().is_some()` — it consumes ONE pending event —
and, if one was present, pushes a single segment spawned at
`last_tail_position.0.unwrap()`.  `none` models the panic of `unwrap` on an
empty LastTailPosition; otherwise the result is (new segment positions,
remaining pending events). -/
def snek_growth (pendingGrowth : Nat) (lastTail : Option Position)
    (segments : List Position) : Option (List Position × Nat) :=
  if 1 ≤ pendingGrowth then
    match lastTail with
    | none => none
    | some p => some (segments ++ [p], pendingGrowth - 1)
  else
    some (segments, 0)

/-- The game state reached through spawn/despawn commands: the head entity
(with its SnekHead and Position components), the segment entities' positions
in SnekSegments order, and the food entities' positions. -/
structure World where
  head : Option (SnekHead × Position)
  segments : List Position
  foods : List Position
deriving DecidableEq, Repr

/-- `spawn_initial_snake` (main.rs lines 223-247): replaces the SnekSegments
resource with a single segment at (3,2) and spawns a head at (3,3) with
heading Up and an empty next_direction buffer.  Food entities are untouched. -/
def spawn_initial_snake (w : World) : World :=
  { w with
    segments := [⟨3, 2⟩],
    head := some (⟨Direction.Up, none⟩, ⟨3, 3⟩) }

/-- One per-frame execution of `game_over` (main.rs lines 199-221), given the
number of pending GameOverEvents visible to its local reader.  The code
checks `reader.iter(..).next().is_some()`; if at least one event is pending
it despawns every segment entity, every food entity and every head entity and
then calls `spawn_initial_snake` — once, regardless of how many events are
pending.  Returns the resulting world and the number of reset sequences
performed this frame. -/
def game_over (pendingGameOver : Nat) (w : World) : World × Nat :=
  if 1 ≤ pendingGameOver then
    (spawn_initial_snake { w with head := none, segments := [], foods := [] }, 1)
  else
    (w, 0)

/-- The startup state: `game_setup` calls `spawn_initial_snake` on the empty
world (no head, no segments, no food exist before the game_setup stage). -/
def initial_world : World :=
  spawn_initial_snake { head := none, segments := [], foods := [] }

/-- The body-follow loop sends one game-over event per segment whose (pre-shift)
position equals the head's new position. -/
theorem shiftSegments_sends (hp : Position) (segs : List Position) : ∀ lastPos,
    (shiftSegments hp lastPos segs).2.2 = segs.countP (fun s => decide (s = hp)) := by
  induction segs with
  | nil =>
      intro lastPos
      simp [shiftSegments]
  | cons s rest ih =>
      intro lastPos
      by_cases h : s = hp
      · simp [shiftSegments, h, ih, List.countP_cons]
      · simp [shiftSegments, h, ih, List.countP_cons]

/-- When no segment sits on the head's new position, the body-follow loop is the
classic shift: each segment takes its predecessor's pre-tick position (the first
takes the head's pre-move position `lastPos`), and the final hand-me-down value
is the old tail position. -/
theorem shiftSegments_no_collision (hp : Position) (segs : List Position) :
    ∀ lastPos, (∀ s ∈ segs, s ≠ hp) →
      (shiftSegments hp lastPos segs).1 = (lastPos :: segs).dropLast
      ∧ (shiftSegments hp lastPos segs).2.1 = segs.getLastD lastPos := by
  induction segs with
  | nil =>
      intro lastPos _
      simp [shiftSegments]
  | cons s rest ih =>
      intro lastPos h
      have hs : s ≠ hp := h s (by simp)
      have hrest : ∀ x ∈ rest, x ≠ hp := fun x hx => h x (by simp [hx])
      obtain ⟨h1, h2⟩ := ih s hrest
      have hstep : shiftSegments hp lastPos (s :: rest)
          = (lastPos :: (shiftSegments hp s rest).1,
             (shiftSegments hp s rest).2.1, (shiftSegments hp s rest).2.2) := by
        simp [shiftSegments, hs]
      rw [hstep]
      refine ⟨?_, ?_⟩
      · rw [h1, List.dropLast_cons₂]
      · rw [h2, List.getLastD_cons]

/-- C8: for every direction h in {Left, Up, Right, Down},
opposite(opposite(h)) = h. -/
theorem C8_opposite_involution (d : Direction) : d.opposite.opposite = d := by
  cases d <;> rfl

/-- C1 counterexample: the claim says a game-over signal is raised iff the
head's post-move position is out of bounds, and never on frames where the
movement timer has not elapsed.  The code instead checks the PRE-move position
on EVERY frame.  Concretely: a tick moving the head from (9,9) to the
out-of-bounds cell (10,9) raises zero signals, while a non-tick frame with the
head already at (10,5) raises one. -/
theorem C1_counterexample :
    (snek_movement none true ⟨Direction.Right, none⟩ ⟨9, 9⟩ [] none).gameOverSends = 0
    ∧ (snek_movement none true ⟨Direction.Right, none⟩ ⟨9, 9⟩ [] none).pos = ⟨10, 9⟩
    ∧ boundaryViolation ⟨10, 9⟩ = true
    ∧ (snek_movement none false ⟨Direction.Up, none⟩ ⟨10, 5⟩ [] none).gameOverSends = 1 := by
  decide

/-- C1 (amended): one game-over signal is raised per frame (tick or not) iff
the head's position AT THE START of the frame, i.e. before this frame's move,
has x<0, y<0, x>=10 or y>=10 (the y coordinate being compared against the
width extent); on a movement tick the self-collision signals of the
body-follow loop are added to it, one per segment occupying the head's new
position. -/
theorem C1_boundary_signal (dirInput : Option Direction) (timerFinished : Bool)
    (head : SnekHead) (pos : Position) (segments : List Position)
    (lastTail : Option Position)
    (hx : -2 ^ 31 ≤ pos.x ∧ pos.x < 2 ^ 31) (hy : -2 ^ 31 ≤ pos.y ∧ pos.y < 2 ^ 31) :
    (boundaryViolation pos = true ↔
       (pos.x < 0 ∨ pos.y < 0 ∨ (10 : Int) ≤ pos.x ∨ (10 : Int) ≤ pos.y))
    ∧ (timerFinished = false →
        (snek_movement dirInput timerFinished head pos segments lastTail).gameOverSends
          = if boundaryViolation pos then 1 else 0)
    ∧ (timerFinished = true →
        (snek_movement dirInput timerFinished head pos segments lastTail).gameOverSends
          = (if boundaryViolation pos then 1 else 0)
            + segments.countP (fun s => decide (s = newHeadPos dirInput head pos))) := by
  refine ⟨?_, ?_, ?_⟩
  · obtain ⟨hx1, hx2⟩ := hx
    obtain ⟨hy1, hy2⟩ := hy
    simp only [boundaryViolation, i32AsU32, ARENA_WIDTH, Bool.or_eq_true, decide_eq_true_eq,
      Nat.cast_ofNat]
    omega
  · intro h
    subst h
    simp [snek_movement]
  · intro h
    subst h
    simp [snek_movement, newHeadPos, committedDirection, shiftSegments_sends]

/-- C1 witness: the amended boundary characterization instantiated at an
in-bounds head on a movement tick. -/
theorem C1_boundary_signal_witness :
    (boundaryViolation ⟨3, 3⟩ = true ↔
       ((⟨3, 3⟩ : Position).x < 0 ∨ (⟨3, 3⟩ : Position).y < 0
         ∨ (10 : Int) ≤ (⟨3, 3⟩ : Position).x ∨ (10 : Int) ≤ (⟨3, 3⟩ : Position).y))
    ∧ (true = false →
        (snek_movement none true ⟨Direction.Up, none⟩ ⟨3, 3⟩ [] none).gameOverSends
          = if boundaryViolation ⟨3, 3⟩ then 1 else 0)
    ∧ (true = true →
        (snek_movement none true ⟨Direction.Up, none⟩ ⟨3, 3⟩ [] none).gameOverSends
          = (if boundaryViolation ⟨3, 3⟩ then 1 else 0)
            + List.countP (fun s => decide (s = newHeadPos none ⟨Direction.Up, none⟩ ⟨3, 3⟩)) []) :=
  C1_boundary_signal none true ⟨Direction.Up, none⟩ ⟨3, 3⟩ [] none (by norm_num) (by norm_num)

/-- C2 counterexample: on a movement tick where a segment occupies the head's
new position (here the head at (3,3) heading Up moves onto the segment at
(3,4)), that segment does NOT take the head's pre-move position (3,3): the
body-follow loop leaves the colliding segment unshifted. -/
theorem C2_counterexample :
    (snek_movement none true ⟨Direction.Up, none⟩ ⟨3, 3⟩ [⟨3, 4⟩] none).segments = [⟨3, 4⟩]
    ∧ ((⟨3, 4⟩ : Position) ≠ ⟨3, 3⟩) := by
  decide

/-- C2 (amended): on a movement tick the committed heading is the buffered
next_direction if present, else the current heading; the head moves exactly
one cell along it (Left: x-1, Right: x+1, Up: y+1, Down: y-1); and — provided
no segment occupies the head's new position (the self-collision case, in which
the colliding segment is left unshifted) — each body segment in sequence order
takes the position its predecessor (or the head) held before the move. -/
theorem C2_movement_tick (dirInput : Option Direction) (head : SnekHead)
    (pos : Position) (segments : List Position) (lastTail : Option Position)
    (hnc : ∀ s ∈ segments, s ≠ newHeadPos dirInput head pos) :
    (∀ d, (bufferInput dirInput head).next_direction = some d →
        committedDirection dirInput head = d)
    ∧ ((bufferInput dirInput head).next_direction = none →
        committedDirection dirInput head = head.direction)
    ∧ (snek_movement dirInput true head pos segments lastTail).head
        = ⟨committedDirection dirInput head, none⟩
    ∧ (snek_movement dirInput true head pos segments lastTail).pos
        = movePos (committedDirection dirInput head) pos
    ∧ (committedDirection dirInput head = Direction.Left →
        (snek_movement dirInput true head pos segments lastTail).pos = ⟨pos.x - 1, pos.y⟩)
    ∧ (committedDirection dirInput head = Direction.Right →
        (snek_movement dirInput true head pos segments lastTail).pos = ⟨pos.x + 1, pos.y⟩)
    ∧ (committedDirection dirInput head = Direction.Up →
        (snek_movement dirInput true head pos segments lastTail).pos = ⟨pos.x, pos.y + 1⟩)
    ∧ (committedDirection dirInput head = Direction.Down →
        (snek_movement dirInput true head pos segments lastTail).pos = ⟨pos.x, pos.y - 1⟩)
    ∧ (snek_movement dirInput true head pos segments lastTail).segments
        = (pos :: segments).dropLast := by
  have hbuf : (bufferInput dirInput head).direction = head.direction := by
    cases dirInput with
    | none => rfl
    | some d =>
        by_cases hd : d ≠ head.direction ∧ d ≠ head.direction.opposite <;>
          simp [bufferInput, hd]
  have hpos : (snek_movement dirInput true head pos segments lastTail).pos
      = movePos (committedDirection dirInput head) pos := by
    simp [snek_movement, committedDirection]
  refine ⟨?_, ?_, ?_, hpos, ?_, ?_, ?_, ?_, ?_⟩
  · intro d hd
    simp [committedDirection, hd]
  · intro hd
    simp [committedDirection, hd, hbuf]
  · simp [snek_movement, committedDirection]
  · intro hd
    rw [hpos, hd]
    simp [movePos]
  · intro hd
    rw [hpos, hd]
    simp [movePos]
  · intro hd
    rw [hpos, hd]
    simp [movePos]
  · intro hd
    rw [hpos, hd]
    simp [movePos]
  · have := (shiftSegments_no_collision (newHeadPos dirInput head pos) segments pos hnc).1
    simp only [snek_movement, newHeadPos, committedDirection] at this ⊢
    simp [this]

/-- C2 witness: one tick from the initial configuration with one trailing
segment: the segment takes the head's pre-move cell. -/
theorem C2_movement_tick_witness :
    (snek_movement none true ⟨Direction.Up, none⟩ ⟨3, 3⟩ [⟨3, 2⟩] none).segments
      = ([(⟨3, 3⟩ : Position), ⟨3, 2⟩]).dropLast :=
  (C2_movement_tick none ⟨Direction.Up, none⟩ ⟨3, 3⟩ [⟨3, 2⟩] none
    (by decide)).2.2.2.2.2.2.2.2

/-- C3 counterexample: a movement tick where a segment occupies the head's new
position but TWO game-over signals are raised, not exactly one: the head at
(10,5) (out of bounds from a previous tick) also trips the per-frame boundary
check while moving onto the segment at (10,6). -/
theorem C3_counterexample :
    (snek_movement none true ⟨Direction.Up, none⟩ ⟨10, 5⟩ [⟨10, 6⟩] none).pos = ⟨10, 6⟩
    ∧ ((⟨10, 6⟩ : Position) ∈ [(⟨10, 6⟩ : Position)])
    ∧ (snek_movement none true ⟨Direction.Up, none⟩ ⟨10, 5⟩ [⟨10, 6⟩] none).gameOverSends = 2 := by
  decide

/-- C3 (amended): on a movement tick the body-follow loop raises one game-over
signal per segment whose pre-shift position equals the head's new position
(each segment is compared before it is shifted), in addition to the frame's
pre-move boundary signal if any; exactly one signal is raised when exactly one
segment matches and the boundary check did not fire. -/
theorem C3_self_collision (dirInput : Option Direction) (head : SnekHead)
    (pos : Position) (segments : List Position) (lastTail : Option Position) :
    (snek_movement dirInput true head pos segments lastTail).gameOverSends
      = (if boundaryViolation pos then 1 else 0)
        + segments.countP (fun s => decide (s = newHeadPos dirInput head pos))
    ∧ (boundaryViolation pos = false →
        segments.countP (fun s => decide (s = newHeadPos dirInput head pos)) = 1 →
        (snek_movement dirInput true head pos segments lastTail).gameOverSends = 1) := by
  have hmain : (snek_movement dirInput true head pos segments lastTail).gameOverSends
      = (if boundaryViolation pos then 1 else 0)
        + segments.countP (fun s => decide (s = newHeadPos dirInput head pos)) := by
    simp [snek_movement, newHeadPos, committedDirection, shiftSegments_sends]
  refine ⟨hmain, ?_⟩
  intro hb hc
  rw [hmain, hb, hc]
  simp

/-- C3 witness: a single in-bounds self-collision raises exactly one signal. -/
theorem C3_self_collision_witness :
    (snek_movement none true ⟨Direction.Up, none⟩ ⟨3, 3⟩ [⟨3, 4⟩] none).gameOverSends = 1 :=
  (C3_self_collision none ⟨Direction.Up, none⟩ ⟨3, 3⟩ [⟨3, 4⟩] none).2 (by decide) (by decide)

/-- The snek_eating loop despawns exactly the foods at the head's position and
sends one growth event per despawned food. -/
theorem eatLoop_spec (hp : Position) (foods : List Position) :
    (eatLoop hp foods).1 = foods.filter (fun f => decide (f ≠ hp))
    ∧ (eatLoop hp foods).2 = (foods.filter (fun f => decide (f = hp))).length := by
  induction foods with
  | nil => simp [eatLoop]
  | cons f rest ih =>
      by_cases h : f = hp
      · simp [eatLoop, h, ih.1, ih.2, List.filter_cons]
      · simp [eatLoop, h, ih.1, ih.2, List.filter_cons]

/-- C4 counterexample: with TWO growth signals pending on a frame (two foods
consumed on one tick), `snek_growth` appends exactly ONE segment — the code
only tests `reader.iter(..).next().is_some()` and pushes once — leaving the
second signal unconsumed that frame, instead of appending one segment per
signal. -/
theorem C4_counterexample :
    snek_growth 2 (some ⟨1, 1⟩) [] = some ([⟨1, 1⟩], 1)
    ∧ ([(⟨1, 1⟩ : Position)]).length = 1 := by
  decide

/-- C4 (amended): on a movement tick each food whose position equals the head
position is despawned and raises one growth signal (one per food); but a frame
of `snek_growth` with at least one pending growth signal appends exactly ONE
new segment, spawned at the recorded LastTailPosition, consuming one signal —
multiple simultaneous consumptions do not each yield their own segment on that
frame. -/
theorem C4_growth (headPos : Position) (foods : List Position)
    (n : Nat) (p : Position) (segments : List Position) (hn : 1 ≤ n) :
    (snek_eating true headPos foods).1 = foods.filter (fun f => decide (f ≠ headPos))
    ∧ (snek_eating true headPos foods).2 = (foods.filter (fun f => decide (f = headPos))).length
    ∧ snek_eating false headPos foods = (foods, 0)
    ∧ snek_growth n (some p) segments = some (segments ++ [p], n - 1) := by
  refine ⟨?_, ?_, ?_, ?_⟩
  · simpa [snek_eating] using (eatLoop_spec headPos foods).1
  · simpa [snek_eating] using (eatLoop_spec headPos foods).2
  · simp [snek_eating]
  · simp [snek_growth, hn]

/-- C4 witness: one pending growth signal appends one segment at the recorded
tail position. -/
theorem C4_growth_witness :
    snek_growth 1 (some ⟨1, 1⟩) [] = some ([] ++ [⟨1, 1⟩], 1 - 1) :=
  (C4_growth ⟨0, 0⟩ [] 1 ⟨1, 1⟩ [] (by norm_num)).2.2.2

/-- A head state whose buffered direction, if any, is neither the current
heading nor its opposite.  It holds at startup (`next_direction = None`) and
is preserved by every system that writes the head. -/
def headOK (h : SnekHead) : Prop :=
  ∀ d, h.next_direction = some d → d ≠ h.direction ∧ d ≠ h.direction.opposite

/-- The input-buffering block never changes the current heading. -/
theorem bufferInput_direction (i : Option Direction) (h : SnekHead) :
    (bufferInput i h).direction = h.direction := by
  cases i with
  | none => rfl
  | some d =>
      by_cases hd : d ≠ h.direction ∧ d ≠ h.direction.opposite <;> simp [bufferInput, hd]

/-- No direction is its own opposite. -/
theorem opposite_ne_self (d : Direction) : d.opposite ≠ d := by
  cases d <;> simp [Direction.opposite]

/-- The input-buffering block preserves `headOK`. -/
theorem headOK_bufferInput (i : Option Direction) (h : SnekHead) (hok : headOK h) :
    headOK (bufferInput i h) := by
  cases i with
  | none => exact hok
  | some d =>
      by_cases hd : d ≠ h.direction ∧ d ≠ h.direction.opposite
      · intro e he
        simp [bufferInput, hd] at he
        subst he
        rw [bufferInput_direction]
        exact hd
      · intro e he
        simp [bufferInput, hd] at he

/-- C5: when a directional key is read, next_direction is set to that
direction iff it is neither equal to nor the opposite of the current heading,
and cleared otherwise; consequently (given the buffer invariant, which the
initial head satisfies and every step preserves) the heading committed on a
tick is never the opposite of the heading held at the start of that tick. -/
theorem C5_input_buffering (i : Option Direction) (tf : Bool) (h : SnekHead)
    (pos : Position) (segments : List Position) (lastTail : Option Position)
    (hok : headOK h) :
    (∀ d, i = some d →
        ((bufferInput i h).next_direction = some d
          ↔ (d ≠ h.direction ∧ d ≠ h.direction.opposite))
        ∧ ((bufferInput i h).next_direction = none
          ↔ (d = h.direction ∨ d = h.direction.opposite)))
    ∧ headOK (snek_movement i tf h pos segments lastTail).head
    ∧ (tf = true →
        (snek_movement i tf h pos segments lastTail).head.direction
          ≠ h.direction.opposite) := by
  have hbufok : headOK (bufferInput i h) := headOK_bufferInput i h hok
  have hcommit : committedDirection i h ≠ h.direction.opposite := by
    unfold committedDirection
    cases hbuf : (bufferInput i h).next_direction with
    | none =>
        rw [bufferInput_direction]
        simp only [Option.getD_none]
        exact fun heq => opposite_ne_self h.direction heq.symm
    | some d =>
        simp only [Option.getD_some]
        have := hbufok d hbuf
        rw [bufferInput_direction] at this
        exact this.2
  refine ⟨?_, ?_, ?_⟩
  · intro d hi
    subst hi
    by_cases hd : d ≠ h.direction ∧ d ≠ h.direction.opposite
    · constructor
      · simp [bufferInput, hd]
      · simp only [bufferInput, if_pos hd]
        constructor
        · intro he
          exact absurd he (by simp)
        · intro he
          rcases hd with ⟨hd1, hd2⟩
          rcases he with he | he
          · exact absurd he hd1
          · exact absurd he hd2
    · constructor
      · simp only [bufferInput, if_neg hd]
        constructor
        · intro he
          exact absurd he (by simp)
        · intro he
          exact absurd he hd
      · simp only [bufferInput, if_neg hd]
        constructor
        · intro _
          by_contra hne
          push_neg at hne
          exact hd ⟨hne.1, hne.2⟩
        · intro _
          trivial
  · cases tf with
    | false =>
        have hred : (snek_movement i false h pos segments lastTail).head = bufferInput i h := by
          simp [snek_movement]
        rw [hred]
        exact hbufok
    | true =>
        intro d hd
        simp [snek_movement] at hd
  · intro htf
    subst htf
    simpa [snek_movement, committedDirection] using hcommit

/-- C5 witness: from the initial head (heading Up, empty buffer), pressing
Down (the opposite) on a tick does not commit Down. -/
theorem C5_input_buffering_witness :
    (snek_movement (some Direction.Down) true ⟨Direction.Up, none⟩ ⟨3, 3⟩ [] none).head.direction
      ≠ (⟨Direction.Up, none⟩ : SnekHead).direction.opposite :=
  (C5_input_buffering (some Direction.Down) true ⟨Direction.Up, none⟩ ⟨3, 3⟩ [] none
    (fun _ hd => nomatch hd)).2.2 rfl

/-- C6: when a game-over signal is consumed, every segment, food and head
entity is despawned and the resulting state equals the initial startup state:
one segment at (3,2), a head at (3,3) with heading Up and an empty
next_direction buffer, and zero food entities. -/
theorem C6_reset (n : Nat) (w : World) (hn : 1 ≤ n) :
    (game_over n w).1 = initial_world
    ∧ initial_world.segments = [⟨3, 2⟩]
    ∧ initial_world.head = some (⟨Direction.Up, none⟩, ⟨3, 3⟩)
    ∧ initial_world.foods = [] := by
  refine ⟨?_, rfl, rfl, rfl⟩
  simp [game_over, hn, spawn_initial_snake, initial_world]

/-- C6 witness: consuming a game-over signal from a grown, fed mid-game state
restores exactly the startup state. -/
theorem C6_reset_witness :
    (game_over 1 ⟨some (⟨Direction.Down, some Direction.Left⟩, ⟨7, 7⟩),
        [⟨1, 1⟩, ⟨1, 2⟩], [⟨5, 5⟩]⟩).1 = initial_world :=
  (C6_reset 1 ⟨some (⟨Direction.Down, some Direction.Left⟩, ⟨7, 7⟩),
      [⟨1, 1⟩, ⟨1, 2⟩], [⟨5, 5⟩]⟩ (by norm_num)).1

/-- C9: `snek_growth` unwraps LastTailPosition unconditionally, so processing
a growth signal on a frame where it was never set panics (modelled as `none`);
every movement tick records a tail position, every `snek_movement` frame
preserves a recorded one, and a recorded position makes the unwrap's failure
branch unreachable. -/
theorem C9_growth_unwrap :
    (∀ n segments, 1 ≤ n → snek_growth n none segments = none)
    ∧ (∀ i h p segments lastTail,
        ((snek_movement i true h p segments lastTail).lastTail).isSome = true)
    ∧ (∀ i tf h p segments lastTail, lastTail.isSome = true →
        ((snek_movement i tf h p segments lastTail).lastTail).isSome = true)
    ∧ (∀ n p segments, snek_growth n (some p) segments ≠ none) := by
  refine ⟨?_, ?_, ?_, ?_⟩
  · intro n segments hn
    simp [snek_growth, hn]
  · intro i h p segments lastTail
    simp [snek_movement]
  · intro i tf h p segments lastTail hsome
    cases tf with
    | true => simp [snek_movement]
    | false => simpa [snek_movement] using hsome
  · intro n p segments
    unfold snek_growth
    split <;> simp

/-- C9 witness: the panic case at a concrete input, and a concrete movement
tick recording a tail position. -/
theorem C9_growth_unwrap_witness :
    snek_growth 1 none [] = none
    ∧ ((snek_movement none true ⟨Direction.Up, none⟩ ⟨3, 3⟩ [] none).lastTail).isSome = true :=
  ⟨C9_growth_unwrap.1 1 [] (by norm_num),
   C9_growth_unwrap.2.1 none ⟨Direction.Up, none⟩ ⟨3, 3⟩ [] none⟩

/-- C10: even when several game-over signals are pending in one frame, the
game_over handler performs the despawn-and-respawn reset sequence at most once
per frame, and the outcome equals that of a single pending signal. -/
theorem C10_single_reset (n : Nat) (w : World) :
    (game_over n w).2 ≤ 1 ∧ (1 ≤ n → game_over n w = game_over 1 w) := by
  constructor
  · unfold game_over
    split <;> simp
  · intro hn
    simp [game_over, hn]

/-- C10 witness: two pending signals reset once, identically to one signal. -/
theorem C10_single_reset_witness :
    (game_over 2 initial_world).2 ≤ 1
    ∧ game_over 2 initial_world = game_over 1 initial_world :=
  ⟨(C10_single_reset 2 initial_world).1,
   (C10_single_reset 2 initial_world).2 (by norm_num)⟩

/-- Round to the nearest integer, ties to even — the rounding IEEE-754
applies to the integer-scaled significand. -/
def rne (q : ℚ) : ℤ :=
  if Int.fract q < 1 / 2 then ⌊q⌋
  else if 1 / 2 < Int.fract q then ⌊q⌋ + 1
  else if Even ⌊q⌋ then ⌊q⌋ else ⌊q⌋ + 1

/-- IEEE-754 binary32 round-to-nearest-even of a nonnegative rational in the
normal range: the representable values in [2^e, 2^(e+1)) are the multiples of
2^(e-23), with e the base-2 logarithm of the input.  Subnormals and overflow
never arise at the magnitudes the food spawner computes. -/
def roundF32 (q : ℚ) : ℚ :=
  if q ≤ 0 then 0
  else (rne (q / 2 ^ (Int.log 2 q - 23)) : ℚ) * 2 ^ (Int.log 2 q - 23)

/-- A Rust `as i32` cast of a float value truncates toward zero. -/
def f32AsI32 (q : ℚ) : Int := if 0 ≤ q then ⌊q⌋ else ⌈q⌉

/-- rand's Standard distribution samples an f32 in [0,1) from 24 random bits
scaled by 2^-24: random::<f32>() yields k/2^24 with k < 2^24.  Every such
draw is exactly representable in binary32. -/
def randF32 (k : Nat) : ℚ := (k : ℚ) / 2 ^ 24

/-- The food position computed by `food_spawner` (main.rs lines 263-266):
`x: (random::<f32>() * ARENA_WIDTH as f32) as i32` and likewise `y` with
ARENA_HEIGHT.  The draw and the extent are exactly representable, so the f32
multiplication rounds their exact product to nearest-even, and the cast then
truncates. -/
def food_position (kx ky : Nat) : Position :=
  ⟨f32AsI32 (roundF32 (randF32 kx * (ARENA_WIDTH : ℚ))),
   f32AsI32 (roundF32 (randF32 ky * (ARENA_HEIGHT : ℚ)))⟩

/-- One per-frame execution of `food_spawner` (main.rs lines 249-269): when
the 1000ms food timer finished this frame, spawn exactly one food entity at
the computed random position — unconditionally: no occupancy by snake or food
is consulted. -/
def food_spawner (timerFinished : Bool) (kx ky : Nat)
    (foods : List Position) : List Position :=
  if timerFinished then foods ++ [food_position kx ky] else foods

/-- Nearest-even rounding moves a value up by at most one half. -/
theorem rne_le (q : ℚ) : (rne q : ℚ) ≤ q + 1 / 2 := by
  have hfl : (⌊q⌋ : ℚ) = q - Int.fract q := by
    have h := Int.self_sub_fract q
    linarith
  have h0 : 0 ≤ Int.fract q := Int.fract_nonneg q
  unfold rne
  split_ifs with h1 h2 h3
  · linarith
  · push_cast
    linarith
  · linarith
  · have h4 : (1 : ℚ) / 2 ≤ Int.fract q := not_lt.mp h1
    push_cast
    linarith

/-- Nearest-even rounding moves a value down by at most one half. -/
theorem rne_ge (q : ℚ) : q - 1 / 2 ≤ (rne q : ℚ) := by
  have hfl : (⌊q⌋ : ℚ) = q - Int.fract q := by
    have h := Int.self_sub_fract q
    linarith
  have h1 : Int.fract q < 1 := Int.fract_lt_one q
  unfold rne
  split_ifs with ha hb hc
  · linarith
  · push_cast
    linarith
  · have h4 : Int.fract q ≤ (1 : ℚ) / 2 := not_lt.mp hb
    linarith
  · push_cast
    linarith

/-- Nearest-even rounding of a nonnegative value is nonnegative. -/
theorem rne_nonneg (q : ℚ) (hq : 0 ≤ q) : 0 ≤ rne q := by
  have h0 : 0 ≤ ⌊q⌋ := Int.floor_nonneg.mpr hq
  unfold rne
  split_ifs <;> omega

/-- The binary32 rounding of a nonnegative rational is nonnegative. -/
theorem roundF32_nonneg (q : ℚ) : 0 ≤ roundF32 q := by
  unfold roundF32
  split_ifs with h
  · exact le_refl 0
  · have hq : 0 < q := not_le.mp h
    have hu : (0 : ℚ) < 2 ^ (Int.log 2 q - 23) := zpow_pos (by norm_num) _
    have hr := rne_nonneg (q / 2 ^ (Int.log 2 q - 23)) (le_of_lt (div_pos hq hu))
    have : (0 : ℚ) ≤ (rne (q / 2 ^ (Int.log 2 q - 23)) : ℚ) := by exact_mod_cast hr
    exact mul_nonneg this (le_of_lt hu)

/-- The binary32 rounding of a positive value exceeds it by at most half a
unit in the last place, i.e. by at most 2^(e-24) where e is its exponent. -/
theorem roundF32_le (q : ℚ) (hq : 0 < q) :
    roundF32 q ≤ q + 2 ^ (Int.log 2 q - 24) := by
  have hu : (0 : ℚ) < 2 ^ (Int.log 2 q - 23) := zpow_pos (by norm_num) _
  have h1 : (rne (q / 2 ^ (Int.log 2 q - 23)) : ℚ)
      ≤ q / 2 ^ (Int.log 2 q - 23) + 1 / 2 := rne_le _
  have h2 : roundF32 q
      = (rne (q / 2 ^ (Int.log 2 q - 23)) : ℚ) * 2 ^ (Int.log 2 q - 23) := by
    unfold roundF32
    rw [if_neg (not_le.mpr hq)]
  have h3 := mul_le_mul_of_nonneg_right h1 (le_of_lt hu)
  rw [add_mul, div_mul_cancel₀ _ (ne_of_gt hu)] at h3
  have h4 : (1 / 2 : ℚ) * 2 ^ (Int.log 2 q - 23) = 2 ^ (Int.log 2 q - 24) := by
    have he : Int.log 2 q - 24 = (Int.log 2 q - 23) + (-1) := by ring
    rw [he, zpow_add₀ (by norm_num : (2 : ℚ) ≠ 0)]
    rw [zpow_neg, zpow_one]
    ring
  rw [h2]
  calc (rne (q / 2 ^ (Int.log 2 q - 23)) : ℚ) * 2 ^ (Int.log 2 q - 23)
      ≤ q + 1 / 2 * 2 ^ (Int.log 2 q - 23) := h3
    _ = q + 2 ^ (Int.log 2 q - 24) := by rw [h4]

/-- Any 24-bit draw scaled by the grid extent lands, after binary32 rounding
and i32 truncation, in [0, 10). -/
theorem food_coord_bounds (k : Nat) (hk : k < 2 ^ 24) :
    0 ≤ f32AsI32 (roundF32 (randF32 k * 10))
    ∧ f32AsI32 (roundF32 (randF32 k * 10)) < 10 := by
  set q : ℚ := randF32 k * 10 with hqdef
  have hnn : 0 ≤ roundF32 q := roundF32_nonneg q
  have hcast : f32AsI32 (roundF32 q) = ⌊roundF32 q⌋ := by
    unfold f32AsI32
    rw [if_pos hnn]
  have hlt : roundF32 q < 10 := by
    rcases Nat.eq_zero_or_pos k with hk0 | hkpos
    · have hq0 : q = 0 := by
        simp [hqdef, randF32, hk0]
      rw [hq0]
      unfold roundF32
      norm_num
    · have hqpos : 0 < q := by
        rw [hqdef]
        unfold randF32
        have : (0 : ℚ) < (k : ℚ) := by exact_mod_cast hkpos
        positivity
      have hkle : (k : ℚ) ≤ 2 ^ 24 - 1 := by
        have : k ≤ 2 ^ 24 - 1 := by omega
        have hc : (k : ℚ) ≤ ((2 ^ 24 - 1 : ℕ) : ℚ) := by exact_mod_cast this
        calc (k : ℚ) ≤ ((2 ^ 24 - 1 : ℕ) : ℚ) := hc
          _ = 2 ^ 24 - 1 := by norm_num
      have hqle : q ≤ 10 - 10 / 2 ^ 24 := by
        rw [hqdef]
        unfold randF32
        rw [div_mul_eq_mul_div, div_le_iff₀ (by norm_num : (0 : ℚ) < 2 ^ 24)]
        nlinarith
      have hlog : Int.log 2 q ≤ 3 := by
        have h16 : q < (2 : ℚ) ^ (4 : ℤ) := by
          have : ((2 : ℚ) ^ (4 : ℤ)) = 16 := by norm_num
          rw [this]
          linarith
        have := (Int.lt_zpow_iff_log_lt (by norm_num : 1 < 2) hqpos).mp h16
        omega
      have hulp : (2 : ℚ) ^ (Int.log 2 q - 24) ≤ 2 ^ (-21 : ℤ) :=
        zpow_le_zpow_right₀ (by norm_num) (by omega)
      have h21 : (2 : ℚ) ^ (-21 : ℤ) = 1 / 2 ^ 21 := by
        rw [zpow_neg]
        norm_num
      have hfin := roundF32_le q hqpos
      rw [h21] at hulp
      have : roundF32 q ≤ 10 - 10 / 2 ^ 24 + 1 / 2 ^ 21 := by linarith
      linarith [this]
  constructor
  · rw [hcast]
    exact Int.floor_nonneg.mpr hnn
  · rw [hcast]
    apply Int.floor_lt.mpr
    exact_mod_cast hlt

/-- C7: on each elapse of the food timer exactly one food entity is spawned,
with x and y from independent 24-bit random draws in [0,1) scaled by the grid
extent, so the spawned position satisfies 0 ≤ x < 10 and 0 ≤ y < 10; the
spawn is unconditional — it appends to any prior food list and never consults
occupancy by the snake or by existing food. -/
theorem C7_food_spawner (tf : Bool) (kx ky : Nat) (foods : List Position)
    (hkx : kx < 2 ^ 24) (hky : ky < 2 ^ 24) :
    (tf = true →
       food_spawner tf kx ky foods = foods ++ [food_position kx ky]
       ∧ 0 ≤ (food_position kx ky).x ∧ (food_position kx ky).x < 10
       ∧ 0 ≤ (food_position kx ky).y ∧ (food_position kx ky).y < 10)
    ∧ (tf = false → food_spawner tf kx ky foods = foods) := by
  have hw : (ARENA_WIDTH : ℚ) = 10 := by norm_num [ARENA_WIDTH]
  have hh : (ARENA_HEIGHT : ℚ) = 10 := by norm_num [ARENA_HEIGHT]
  have hx : (food_position kx ky).x = f32AsI32 (roundF32 (randF32 kx * 10)) := by
    simp [food_position, hw]
  have hy : (food_position kx ky).y = f32AsI32 (roundF32 (randF32 ky * 10)) := by
    simp [food_position, hh]
  constructor
  · intro h
    subst h
    refine ⟨by simp [food_spawner], ?_, ?_, ?_, ?_⟩
    · rw [hx]
      exact (food_coord_bounds kx hkx).1
    · rw [hx]
      exact (food_coord_bounds kx hkx).2
    · rw [hy]
      exact (food_coord_bounds ky hky).1
    · rw [hy]
      exact (food_coord_bounds ky hky).2
  · intro h
    subst h
    simp [food_spawner]

/-- C7 witness: a timer elapse with the draws at zero spawns one in-bounds
food item. -/
theorem C7_food_spawner_witness :
    food_spawner true 0 0 [] = [] ++ [food_position 0 0]
    ∧ 0 ≤ (food_position 0 0).x ∧ (food_position 0 0).x < 10
    ∧ 0 ≤ (food_position 0 0).y ∧ (food_position 0 0).y < 10 :=
  (C7_food_spawner true 0 0 [] (by norm_num) (by norm_num)).1 rfl

end Snek
